import Mathlib

/-!
Shallow embedding of the multi-evaluator orchestration and aggregation
engine of the bot_ebooks repository
(src/bot_ebooks/evaluation/{providers,aggregation,personas,multi_judge}.py).

Numeric scores are modelled as rationals (Python floats/Decimals hold the
exact decimal values involved here); exceptions are modelled as
`Except String`; the asynchronous provider call of a (provider, persona)
task is modelled as an explicit outcome function handed to the
orchestrator core.
-/

namespace BotEbooks

/-! ### providers.py — response parsing -/

/-- The four evaluation dimensions, in the order the parser validates them. -/
inductive Dim
  | novelty
  | structureDim
  | thoroughness
  | clarity
deriving DecidableEq, Repr

/-- JSON name of a dimension. -/
def Dim.pyName : Dim → String
  | .novelty => "novelty"
  | .structureDim => "structure"
  | .thoroughness => "thoroughness"
  | .clarity => "clarity"

/-- A raw JSON `score` value as seen by `float(...)`: either a value that
coerces to a float (numbers and numeric strings), carried as the rational it
coerces to, or a value on which `float(...)` raises. -/
inductive RawScore
  | num (q : ℚ)
  | uncoercible (s : String)
deriving DecidableEq, Repr

/-- `float(x)` on a raw score: returns the number or raises. -/
def coerceFloat : RawScore → Except String ℚ
  | .num q => .ok q
  | .uncoercible s => .error ("could not convert to float: " ++ s)

/-- One dimension's decoded JSON object: `score` and `feedback` fields, each
possibly absent. -/
structure RawDim where
  score : Option RawScore
  feedback : Option String
deriving DecidableEq, Repr

/-- The decoded JSON object of a provider response: the four dimension
entries (each possibly absent) and the optional overall summary. -/
structure RawData where
  dims : Dim → Option RawDim
  overallSummary : Option String

/-- A validated dimension after parsing: coerced score and feedback
(defaulted to the empty string when absent). -/
structure ParsedDim where
  score : ℚ
  feedback : String
deriving DecidableEq, Repr

/-- The dictionary returned by a successful `parse_evaluation_response`. -/
structure ParsedData where
  dims : Dim → ParsedDim
  overallSummary : Option String

/-- Validation of a single dimension, mirroring one iteration of the
`for dim in required_dims` loop of `LLMProvider.parse_evaluation_response`:
missing dimension raises, missing `score` raises, missing `feedback` becomes
`""`, `float` coercion failure raises, and a coerced score outside `[1,10]`
raises. -/
def parseDim (name : String) (d : Option RawDim) : Except String ParsedDim :=
  match d with
  | none => .error ("Missing dimension in response: " ++ name)
  | some dim =>
    match dim.score with
    | none => .error ("Missing score for dimension: " ++ name)
    | some raw =>
      match coerceFloat raw with
      | .error e => .error e
      | .ok q =>
        if 1 ≤ q ∧ q ≤ 10 then
          .ok { score := q, feedback := dim.feedback.getD "" }
        else
          .error ("Score for " ++ name ++ " out of range")

/-- `LLMProvider.parse_evaluation_response`: `none` models a response text
in which no JSON object could be found or whose JSON failed to decode (the
two hard failures before the validation loop); otherwise the four required
dimensions are validated in order. -/
def parse_evaluation_response (resp : Option RawData) : Except String ParsedData :=
  match resp with
  | none => .error "No JSON found in LLM response"
  | some data => do
    let n ← parseDim "novelty" (data.dims .novelty)
    let s ← parseDim "structure" (data.dims .structureDim)
    let t ← parseDim "thoroughness" (data.dims .thoroughness)
    let c ← parseDim "clarity" (data.dims .clarity)
    .ok { dims := fun d => match d with
            | .novelty => n
            | .structureDim => s
            | .thoroughness => t
            | .clarity => c
          overallSummary := data.overallSummary }

/-! ### Rounding

Python's builtin `round` (used on floats in aggregation.py) and
`Decimal.quantize` with its default context (used in multi_judge.py) both
round half to even; on the exact rationals of this embedding both are
`pyRound2` below. -/

/-- Round a rational to the nearest integer, ties to even. -/
def roundHalfEven (q : ℚ) : ℤ :=
  let f := ⌊q⌋
  let r := q - f
  if r < 1/2 then f
  else if 1/2 < r then f + 1
  else if f % 2 = 0 then f else f + 1

/-- `round(q, 2)` / `quantize(Decimal("0.01"))`: round half-even to two
decimal places. -/
def pyRound2 (q : ℚ) : ℚ := (roundHalfEven (q * 100) : ℚ) / 100

/-! ### Statistics helpers (the `statistics` module functions the code uses).
The code only ever applies them to non-empty lists; on `[]` the embedding
returns `0` where Python would raise. -/

/-- `statistics.mean`. -/
def mean (l : List ℚ) : ℚ := l.sum / l.length

/-- `statistics.median`: middle element of the sorted list for odd length,
mean of the two middle elements for even length. -/
def median (l : List ℚ) : ℚ :=
  let s := l.insertionSort (· ≤ ·)
  let n := l.length
  if n % 2 = 1 then s.getD (n / 2) 0
  else (s.getD (n / 2 - 1) 0 + s.getD (n / 2) 0) / 2

/-- `_trimmed_mean` (aggregation.py): mean after removing the first and last
element of the sorted list; plain mean when there are at most two values. -/
def _trimmed_mean (values : List ℚ) : ℚ :=
  if values.length ≤ 2 then mean values
  else mean ((values.insertionSort (· ≤ ·)).drop 1).dropLast

/-- The square of `statistics.stdev`: the sample variance
`Σ (x − mean)² / (n − 1)`; `0` for fewer than two values. The square is
taken so the value stays rational (the standard deviation itself is an
irrational square root in general). -/
def sampleVariance (l : List ℚ) : ℚ :=
  if l.length ≤ 1 then 0
  else (l.map (fun x => (x - mean l) ^ 2)).sum / ((l.length : ℚ) - 1)

/-- `max(l)` for a non-empty list (`0` on `[]`, unreachable in the code). -/
def listMax : List ℚ → ℚ
  | [] => 0
  | x :: xs => xs.foldl max x

/-- `min(l)` for a non-empty list (`0` on `[]`, unreachable in the code). -/
def listMin : List ℚ → ℚ
  | [] => 0
  | x :: xs => xs.foldl min x

/-! ### personas.py — the static persona registry -/

/-- `EvaluatorPersona` (the fields the engine computes with; the prose
fields are omitted). -/
structure EvaluatorPersona where
  id : String
  noveltyWeight : ℚ
  structureWeight : ℚ
  thoroughnessWeight : ℚ
  clarityWeight : ℚ
  strictness : ℚ
deriving DecidableEq, Repr

def RIGORIST : EvaluatorPersona :=
  { id := "rigorist", noveltyWeight := 0.20, structureWeight := 0.20,
    thoroughnessWeight := 0.40, clarityWeight := 0.20, strictness := 0.8 }

def SYNTHESIZER : EvaluatorPersona :=
  { id := "synthesizer", noveltyWeight := 0.40, structureWeight := 0.20,
    thoroughnessWeight := 0.20, clarityWeight := 0.20, strictness := 0.5 }

def STYLIST : EvaluatorPersona :=
  { id := "stylist", noveltyWeight := 0.20, structureWeight := 0.25,
    thoroughnessWeight := 0.15, clarityWeight := 0.40, strictness := 0.6 }

def CONTRARIAN : EvaluatorPersona :=
  { id := "contrarian", noveltyWeight := 0.45, structureWeight := 0.15,
    thoroughnessWeight := 0.25, clarityWeight := 0.15, strictness := 0.7 }

def PEDAGOGUE : EvaluatorPersona :=
  { id := "pedagogue", noveltyWeight := 0.15, structureWeight := 0.30,
    thoroughnessWeight := 0.25, clarityWeight := 0.30, strictness := 0.5 }

/-- The `PERSONAS` registry dictionary. -/
def PERSONAS : List (String × EvaluatorPersona) :=
  [("rigorist", RIGORIST), ("synthesizer", SYNTHESIZER), ("stylist", STYLIST),
   ("contrarian", CONTRARIAN), ("pedagogue", PEDAGOGUE)]

/-- Registry lookup, `None` for an unknown id. -/
def getPersona? (personaId : String) : Option EvaluatorPersona :=
  PERSONAS.lookup personaId

/-- `get_persona`: raises `ValueError` on an unknown id. -/
def get_persona (personaId : String) : Except String EvaluatorPersona :=
  match getPersona? personaId with
  | some p => .ok p
  | none => .error ("Unknown persona: " ++ personaId)

/-! ### aggregation.py — the aggregation engine -/

/-- `AggregationMethod`. -/
inductive AggregationMethod
  | mean
  | median
  | trimmedMean
  | weightedMean
deriving DecidableEq, Repr

/-- `IndividualScore`. -/
structure IndividualScore where
  provider : String
  personaId : String
  noveltyScore : ℚ
  structureScore : ℚ
  thoroughnessScore : ℚ
  clarityScore : ℚ
  weightedScore : ℚ
  success : Bool
deriving DecidableEq, Repr

/-- `AggregatedScore`. `scoreStdDevSq` carries the square of the
`score_std_dev` the code computes with `statistics.stdev` (the code rounds
the resulting float to three decimal places, a step on the irrational
square root that is not modelled; it maps `0` to `0`). -/
structure AggregatedScore where
  noveltyScore : ℚ
  structureScore : ℚ
  thoroughnessScore : ℚ
  clarityScore : ℚ
  overallScore : ℚ
  evaluatorCount : ℕ
  successfulCount : ℕ
  method : AggregationMethod
  scoreStdDevSq : ℚ
  maxDisagreement : ℚ
  evaluatorBreakdown : List (String × String × ℚ)
deriving DecidableEq, Repr

/-- The per-result weight of the `weighted_mean` branch:
`1.0 − persona.strictness × 0.3`, with weight `1.0` when the persona lookup
raises (unknown id). -/
def personaWeight (lookup : String → Option EvaluatorPersona) (pid : String) : ℚ :=
  match lookup pid with
  | some p => 1 - p.strictness * 0.3
  | none => 1

/-- `Σ(value_i × weight_i) / Σ(weight_i)`. -/
def weightedAgg (vals ws : List ℚ) : ℚ :=
  (List.zipWith (· * ·) vals ws).sum / ws.sum

/-- The aggregate of one list of values under a method, exactly as computed
(before the 2-decimal rounding) by the method dispatch in
`aggregate_scores`; `successful` supplies the evaluator count for the
`trimmed_mean` guard and the personas for the `weighted_mean` weights. -/
def aggOf (lookup : String → Option EvaluatorPersona) (method : AggregationMethod)
    (successful : List IndividualScore) (vals : List ℚ) : ℚ :=
  match method with
  | .mean => mean vals
  | .median => median vals
  | .trimmedMean =>
      if 4 ≤ successful.length then _trimmed_mean vals else median vals
  | .weightedMean =>
      weightedAgg vals (successful.map (fun s => personaWeight lookup s.personaId))

/-- The successful results the engine filters to. -/
def successfulOf (individualScores : List IndividualScore) : List IndividualScore :=
  individualScores.filter (fun s => s.success)

/-- The record `aggregate_scores` builds on its success path. -/
def aggRecord (lookup : String → Option EvaluatorPersona)
    (individualScores : List IndividualScore) (method : AggregationMethod) :
    AggregatedScore :=
  let successful := successfulOf individualScores
  let noveltyScores := successful.map (fun s => s.noveltyScore)
  let structureScores := successful.map (fun s => s.structureScore)
  let thoroughnessScores := successful.map (fun s => s.thoroughnessScore)
  let clarityScores := successful.map (fun s => s.clarityScore)
  let weightedScores := successful.map (fun s => s.weightedScore)
  { noveltyScore := pyRound2 (aggOf lookup method successful noveltyScores)
    structureScore := pyRound2 (aggOf lookup method successful structureScores)
    thoroughnessScore := pyRound2 (aggOf lookup method successful thoroughnessScores)
    clarityScore := pyRound2 (aggOf lookup method successful clarityScores)
    overallScore := pyRound2 (aggOf lookup method successful weightedScores)
    evaluatorCount := individualScores.length
    successfulCount := successful.length
    method := method
    scoreStdDevSq :=
      if 1 < weightedScores.length then sampleVariance weightedScores else 0
    maxDisagreement :=
      pyRound2 (if weightedScores.isEmpty then 0
                else listMax weightedScores - listMin weightedScores)
    evaluatorBreakdown :=
      successful.map (fun s => (s.provider, s.personaId, s.weightedScore)) }

/-- `aggregate_scores`, parametric in the persona lookup used by the
`weighted_mean` branch (the code calls the module-level `get_persona`). -/
def aggregateScoresWith (lookup : String → Option EvaluatorPersona)
    (individualScores : List IndividualScore) (method : AggregationMethod) :
    Except String AggregatedScore :=
  if (successfulOf individualScores).isEmpty then
    .error "No successful evaluations to aggregate"
  else
    .ok (aggRecord lookup individualScores method)

/-- `aggregate_scores` as shipped: the persona lookup is the registry. -/
def aggregate_scores (individualScores : List IndividualScore)
    (method : AggregationMethod) : Except String AggregatedScore :=
  aggregateScoresWith getPersona? individualScores method

/-! ### providers.py — the provider registry -/

/-- The keys of the `PROVIDERS` registry. -/
def PROVIDER_NAMES : List String := ["claude", "openai", "gemini"]

def knownProvider (name : String) : Bool := PROVIDER_NAMES.contains name

/-- `get_provider`, reduced to its control flow: raises `ValueError` for an
unknown provider name, succeeds otherwise (instantiating a provider object
performs no I/O). -/
def get_provider_check (name : String) : Except String Unit :=
  if knownProvider name then .ok ()
  else .error ("Unknown provider: " ++ name)

/-! ### multi_judge.py — runner, orchestrator core, constructor -/

/-- `compute_persona_weighted_score`: persona-weighted combination of the
four dimension scores, quantized to two decimal places (`Decimal.quantize`,
default half-even rounding). -/
def compute_persona_weighted_score (p : EvaluatorPersona)
    (novelty structure_ thoroughness clarity : ℚ) : ℚ :=
  pyRound2 (novelty * p.noveltyWeight + structure_ * p.structureWeight
    + thoroughness * p.thoroughnessWeight + clarity * p.clarityWeight)

/-- The fields of the `IndividualEvaluation` DB record that the claims are
about. -/
structure IndividualEvaluation where
  provider : String
  personaId : String
  success : Bool
  errorMessage : Option String
deriving DecidableEq, Repr

/-- The failed `(IndividualEvaluation, IndividualScore)` pair built in the
`except` branch of `_run_single_evaluation`: all scores `Decimal("0")`,
`success=False`, error message captured. -/
def failedPair (providerName personaId e : String) :
    IndividualEvaluation × IndividualScore :=
  ({ provider := providerName, personaId := personaId,
     success := false, errorMessage := some e },
   { provider := providerName, personaId := personaId,
     noveltyScore := 0, structureScore := 0, thoroughnessScore := 0,
     clarityScore := 0, weightedScore := 0, success := false })

/-- `_run_single_evaluation`. The provider call and response are abstracted
into `outcome`: `.error e` models the provider coroutine raising (timeout,
API error, ...), `.ok resp` models a returned response text whose JSON
decode is `resp`. The persona and provider lookups sit *before* the `try`
block, so their failures escape as exceptions (`.error`); everything inside
the `try` turns failures into a returned pair with `success=False`. -/
def runSingleEvaluation (providerName personaId : String)
    (outcome : Except String (Option RawData)) :
    Except String (IndividualEvaluation × IndividualScore) := do
  let persona ← get_persona personaId
  let _ ← get_provider_check providerName
  match outcome with
  | .error e => .ok (failedPair providerName personaId e)
  | .ok resp =>
    match parse_evaluation_response resp with
    | .error e => .ok (failedPair providerName personaId e)
    | .ok scores =>
      let weighted := compute_persona_weighted_score persona
        (scores.dims .novelty).score (scores.dims .structureDim).score
        (scores.dims .thoroughness).score (scores.dims .clarity).score
      .ok
        ({ provider := providerName, personaId := personaId,
           success := true, errorMessage := none },
         { provider := providerName, personaId := personaId,
           noveltyScore := (scores.dims .novelty).score,
           structureScore := (scores.dims .structureDim).score,
           thoroughnessScore := (scores.dims .thoroughness).score,
           clarityScore := (scores.dims .clarity).score,
           weightedScore := weighted, success := true })

/-- `EvaluationStatus` (models/evaluation.py). -/
inductive EvaluationStatus
  | pending
  | inProgress
  | completed
  | failed
deriving DecidableEq, Repr

/-- `EbookStatus` (models/ebook.py). -/
inductive EbookStatus
  | pendingEvaluation
  | evaluating
  | published
  | rejected
deriving DecidableEq, Repr

/-- `MINIMUM_OVERALL_SCORE` (rubrics.py): publish threshold. -/
def MINIMUM_OVERALL_SCORE : ℚ := 3

/-- What `evaluate_ebook` leaves behind: terminal evaluation status and
error message, the ebook's status, whether `aggregate_scores` was invoked,
and the aggregate (when one was produced). -/
structure EvalOutcome where
  status : EvaluationStatus
  errorMessage : Option String
  ebookStatus : EbookStatus
  aggregationCalled : Bool
  aggregated : Option AggregatedScore
deriving Repr

/-- The task set of step 3 of `evaluate_ebook`: the nested
`for provider_name: for persona_id:` loops. -/
def taskPairs (providerNames personaIds : List String) : List (String × String) :=
  providerNames.flatMap (fun pn => personaIds.map (fun pid => (pn, pid)))

/-- Steps 3–4 of `evaluate_ebook`: run every task
(`asyncio.gather(..., return_exceptions=True)`) and keep the pairs of the
tasks that returned, silently skipping tasks that raised (the
`isinstance(result, Exception): continue` branch). -/
def collectedResults (providerNames personaIds : List String)
    (outcome : String → String → Except String (Option RawData)) :
    List (IndividualEvaluation × IndividualScore) :=
  (taskPairs providerNames personaIds).filterMap
    (fun t => (runSingleEvaluation t.1 t.2 (outcome t.1 t.2)).toOption)

/-- Steps 3–7 of `evaluate_ebook` (the part after novelty detection and
prompt building, which involve no scoring logic). An empty collected score
list raises `MultiEvaluationError` before aggregation; any exception —
including `aggregate_scores` rejecting a success-free list — is caught by
the top-level handler, which marks the evaluation FAILED with the captured
message and the ebook rejected. On success the ebook is published iff
`overall_score >= MINIMUM_OVERALL_SCORE`. -/
def evaluateEbookCore (method : AggregationMethod)
    (providerNames personaIds : List String)
    (outcome : String → String → Except String (Option RawData)) : EvalOutcome :=
  let individualScores :=
    (collectedResults providerNames personaIds outcome).map (fun r => r.2)
  if individualScores.isEmpty then
    { status := .failed, errorMessage := some "All individual evaluations failed",
      ebookStatus := .rejected, aggregationCalled := false, aggregated := none }
  else
    match aggregate_scores individualScores method with
    | .error e =>
      { status := .failed, errorMessage := some e, ebookStatus := .rejected,
        aggregationCalled := true, aggregated := none }
    | .ok agg =>
      { status := .completed, errorMessage := none,
        ebookStatus :=
          if MINIMUM_OVERALL_SCORE ≤ agg.overallScore then .published
          else .rejected,
        aggregationCalled := true, aggregated := some agg }

/-- Provider-list setup in `MultiLLMJudge.__init__`: `none` (caller passed
nothing) takes the configured names filtered by availability; an empty
result is replaced by `["claude"]`. -/
def initProviderNames (providers : Option (List String))
    (settingsConfigured available : List String) : List String :=
  let names :=
    match providers with
    | none => settingsConfigured.filter (fun p => available.contains p)
    | some ps => ps
  if names.isEmpty then ["claude"] else names

/-- Persona-list setup in `MultiLLMJudge.__init__`: `none` takes the
configured ids (dropping empty strings); an empty result is replaced by
`["rigorist", "synthesizer"]`. -/
def initPersonaIds (personas : Option (List String))
    (settingsConfigured : List String) : List String :=
  let ids :=
    match personas with
    | none => settingsConfigured.filter (fun p => p ≠ "")
    | some ps => ps
  if ids.isEmpty then ["rigorist", "synthesizer"] else ids

/-! ### Concrete fixtures used by the example-based statements -/

/-- A successful individual result with a given persona id and weighted
score (dimension scores fixed at 5). -/
def mkScore (pid : String) (w : ℚ) : IndividualScore :=
  { provider := "claude", personaId := pid, noveltyScore := 5, structureScore := 5,
    thoroughnessScore := 5, clarityScore := 5, weightedScore := w, success := true }

/-- Four successful results with weighted scores `[9, 8, 7, 2]`. -/
def scores4 : List IndividualScore :=
  [mkScore "rigorist" 9, mkScore "synthesizer" 8, mkScore "stylist" 7,
   mkScore "contrarian" 2]

/-- Three successful results with weighted scores `[9, 8, 2]`. -/
def scores3 : List IndividualScore :=
  [mkScore "rigorist" 9, mkScore "synthesizer" 8, mkScore "stylist" 2]

/-- The overall score of an aggregation result, when one was produced. -/
def overallOf (r : Except String AggregatedScore) : Option ℚ :=
  r.toOption.map (fun a => a.overallScore)

/-- The evaluator count of an aggregation result, when one was produced. -/
def aggEvalCountOf (o : EvalOutcome) : Option ℕ :=
  o.aggregated.map (fun a => a.evaluatorCount)

/-- A well-formed decoded response: every dimension scored 7 with feedback. -/
def sevenData : RawData :=
  { dims := fun _ => some { score := some (RawScore.num 7), feedback := some "fb" }
    overallSummary := some "sum" }

/-- A response whose `novelty` entry is present but has no `score` field. -/
def noveltyNoScoreData : RawData :=
  { dims := fun d => match d with
      | Dim.novelty => some { score := none, feedback := some "fb" }
      | _ => some { score := some (RawScore.num 7), feedback := some "fb" }
    overallSummary := none }

/-- A response whose `novelty` score is 11, outside `[1,10]`. -/
def noveltyElevenData : RawData :=
  { dims := fun d => match d with
      | Dim.novelty => some { score := some (RawScore.num 11), feedback := some "fb" }
      | _ => some { score := some (RawScore.num 7), feedback := some "fb" }
    overallSummary := none }

/-- A response with valid scores but no `feedback` field anywhere. -/
def noFeedbackData : RawData :=
  { dims := fun _ => some { score := some (RawScore.num 7), feedback := none }
    overallSummary := none }

/-- A response whose `clarity` entry has no `score` field. -/
def clarityNoScoreData : RawData :=
  { dims := fun d => match d with
      | Dim.clarity => some { score := none, feedback := some "fb" }
      | _ => some { score := some (RawScore.num 7), feedback := some "fb" }
    overallSummary := none }

/-- The parsed dictionary `parse_evaluation_response` yields on `sevenData`. -/
def sevenParsed : ParsedData :=
  { dims := fun d => match d with
      | Dim.novelty => { score := 7, feedback := "fb" }
      | Dim.structureDim => { score := 7, feedback := "fb" }
      | Dim.thoroughness => { score := 7, feedback := "fb" }
      | Dim.clarity => { score := 7, feedback := "fb" }
    overallSummary := some "sum" }

/-- An outcome function under which every provider call raises. -/
def timeoutOutcome : String → String → Except String (Option RawData) :=
  fun _ _ => .error "timeout"

/-- An outcome function under which every provider call returns the
well-formed `sevenData` response. -/
def sevenOutcome : String → String → Except String (Option RawData) :=
  fun _ _ => .ok (some sevenData)

/-- A hypothetical fully lenient persona (strictness 0), an input for
exercising the weighted-mean weights. -/
def LENIENT_TEST : EvaluatorPersona :=
  { id := "lenient", noveltyWeight := 0.25, structureWeight := 0.25,
    thoroughnessWeight := 0.25, clarityWeight := 0.25, strictness := 0 }

/-- A hypothetical maximally strict persona (strictness 1). -/
def HARSH_TEST : EvaluatorPersona :=
  { id := "harsh", noveltyWeight := 0.25, structureWeight := 0.25,
    thoroughnessWeight := 0.25, clarityWeight := 0.25, strictness := 1 }

/-- A persona lookup containing the two hypothetical personas. -/
def testLookup : String → Option EvaluatorPersona :=
  fun id => if id = "lenient" then some LENIENT_TEST
    else if id = "harsh" then some HARSH_TEST else none

/-! Characterisation lemmas for the parser. -/

theorem parseDim_ok_iff (name : String) (d : Option RawDim) (out : ParsedDim) :
    parseDim name d = .ok out ↔
      ∃ rd q, d = some rd ∧ rd.score = some (RawScore.num q) ∧
        1 ≤ q ∧ q ≤ 10 ∧ out = { score := q, feedback := rd.feedback.getD "" } := by
  constructor
  · intro h
    match d with
    | none => simp [parseDim] at h
    | some rd =>
      match hs : rd.score with
      | none => simp [parseDim, hs] at h
      | some raw =>
        match raw with
        | .uncoercible s => simp [parseDim, hs, coerceFloat] at h
        | .num q =>
          simp only [parseDim, hs, coerceFloat] at h
          by_cases hq : 1 ≤ q ∧ q ≤ 10
          · refine ⟨rd, q, rfl, hs, hq.1, hq.2, ?_⟩
            simp [hq] at h
            exact h.symm
          · simp [hq] at h
  · rintro ⟨rd, q, rfl, hs, h1, h10, rfl⟩
    simp [parseDim, hs, coerceFloat, h1, h10]

theorem parseDim_err_of_none_score (name : String) (rd : RawDim)
    (h : rd.score = none) :
    parseDim name (some rd) = .error ("Missing score for dimension: " ++ name) := by
  simp [parseDim, h]

/-- A successful parse forces, for every dimension: present, coercible
score, score within `[1,10]` and unchanged (no clamping), feedback defaulted
to `""` when absent. -/
theorem parse_ok_iff (resp : Option RawData) (out : ParsedData) :
    parse_evaluation_response resp = .ok out ↔
      ∃ data, resp = some data ∧ out.overallSummary = data.overallSummary ∧
        ∀ d : Dim, ∃ rd q, data.dims d = some rd ∧
          rd.score = some (RawScore.num q) ∧ 1 ≤ q ∧ q ≤ 10 ∧
          (out.dims d).score = q ∧ (out.dims d).feedback = rd.feedback.getD "" := by
  constructor
  · intro h
    match resp with
    | none => simp [parse_evaluation_response] at h
    | some data =>
      refine ⟨data, rfl, ?_⟩
      simp only [parse_evaluation_response, bind, Except.bind] at h
      match hn : parseDim "novelty" (data.dims .novelty) with
      | .error e => rw [hn] at h; exact absurd h (by simp)
      | .ok n =>
        rw [hn] at h
        match hs : parseDim "structure" (data.dims .structureDim) with
        | .error e => rw [hs] at h; exact absurd h (by simp)
        | .ok s =>
          rw [hs] at h
          match ht : parseDim "thoroughness" (data.dims .thoroughness) with
          | .error e => rw [ht] at h; exact absurd h (by simp)
          | .ok t =>
            rw [ht] at h
            match hc : parseDim "clarity" (data.dims .clarity) with
            | .error e => rw [hc] at h; exact absurd h (by simp)
            | .ok c =>
              rw [hc] at h
              simp only [Except.ok.injEq] at h
              obtain ⟨rdn, qn, hdn, hsn, h1n, h10n, hpn⟩ := (parseDim_ok_iff _ _ _).mp hn
              obtain ⟨rds, qs, hds, hss, h1s, h10s, hps⟩ := (parseDim_ok_iff _ _ _).mp hs
              obtain ⟨rdt, qt, hdt, hst, h1t, h10t, hpt⟩ := (parseDim_ok_iff _ _ _).mp ht
              obtain ⟨rdc, qc, hdc, hsc, h1c, h10c, hpc⟩ := (parseDim_ok_iff _ _ _).mp hc
              subst h
              refine ⟨rfl, ?_⟩
              intro d
              cases d with
              | novelty => exact ⟨rdn, qn, hdn, hsn, h1n, h10n, by rw [hpn], by rw [hpn]⟩
              | structureDim => exact ⟨rds, qs, hds, hss, h1s, h10s, by rw [hps], by rw [hps]⟩
              | thoroughness => exact ⟨rdt, qt, hdt, hst, h1t, h10t, by rw [hpt], by rw [hpt]⟩
              | clarity => exact ⟨rdc, qc, hdc, hsc, h1c, h10c, by rw [hpc], by rw [hpc]⟩
  · rintro ⟨data, rfl, hsum, hall⟩
    obtain ⟨rdn, qn, hdn, hsn, h1n, h10n, hvn, hfn⟩ := hall .novelty
    obtain ⟨rds, qs, hds, hss, h1s, h10s, hvs, hfs⟩ := hall .structureDim
    obtain ⟨rdt, qt, hdt, hst, h1t, h10t, hvt, hft⟩ := hall .thoroughness
    obtain ⟨rdc, qc, hdc, hsc, h1c, h10c, hvc, hfc⟩ := hall .clarity
    simp only [parse_evaluation_response, hdn, hds, hdt, hdc, parseDim,
      hsn, hss, hst, hsc, coerceFloat, bind, Except.bind]
    rw [if_pos ⟨h1n, h10n⟩, if_pos ⟨h1s, h10s⟩, if_pos ⟨h1t, h10t⟩, if_pos ⟨h1c, h10c⟩]
    simp only [Except.ok.injEq]
    have hout : ∀ d : Dim, out.dims d =
        (match d with
          | Dim.novelty => ({ score := qn, feedback := rdn.feedback.getD "" } : ParsedDim)
          | Dim.structureDim => { score := qs, feedback := rds.feedback.getD "" }
          | Dim.thoroughness => { score := qt, feedback := rdt.feedback.getD "" }
          | Dim.clarity => { score := qc, feedback := rdc.feedback.getD "" }) := by
      intro d
      cases d with
      | novelty => cases hd : out.dims Dim.novelty with
        | mk sc fb =>
          have h1 := hvn; have h2 := hfn
          rw [hd] at h1 h2; simp at h1 h2; simp [h1, h2]
      | structureDim => cases hd : out.dims Dim.structureDim with
        | mk sc fb =>
          have h1 := hvs; have h2 := hfs
          rw [hd] at h1 h2; simp at h1 h2; simp [h1, h2]
      | thoroughness => cases hd : out.dims Dim.thoroughness with
        | mk sc fb =>
          have h1 := hvt; have h2 := hft
          rw [hd] at h1 h2; simp at h1 h2; simp [h1, h2]
      | clarity => cases hd : out.dims Dim.clarity with
        | mk sc fb =>
          have h1 := hvc; have h2 := hfc
          rw [hd] at h1 h2; simp at h1 h2; simp [h1, h2]
    cases hout2 : out with
    | mk dims sum =>
      rw [hout2] at hout hsum
      simp only at hout hsum
      simp only [ParsedData.mk.injEq]
      constructor
      · funext d
        exact (hout d).symm
      · exact hsum.symm

/-! ### Helper lemmas: rounding -/

theorem le_roundHalfEven {n : ℤ} {q : ℚ} (h : (n : ℚ) ≤ q) :
    n ≤ roundHalfEven q := by
  have hf : n ≤ ⌊q⌋ := Int.le_floor.mpr h
  unfold roundHalfEven
  dsimp only
  split
  · exact hf
  · split
    · omega
    · split <;> omega

theorem roundHalfEven_le {n : ℤ} {q : ℚ} (h : q ≤ (n : ℚ)) :
    roundHalfEven q ≤ n := by
  have hf : ⌊q⌋ ≤ n := by
    have := Int.floor_le_floor h
    simpa using this
  have hup : (1 : ℚ) / 2 ≤ q - ⌊q⌋ → ⌊q⌋ + 1 ≤ n := by
    intro hr
    have h1 : (⌊q⌋ : ℚ) + 1 / 2 ≤ q := by linarith
    have h2 : (⌊q⌋ : ℚ) < n := by linarith
    exact_mod_cast Int.cast_lt.mp h2
  unfold roundHalfEven
  dsimp only
  split
  · exact hf
  · rename_i hlt
    push_neg at hlt
    split
    · exact hup hlt
    · split
      · exact hf
      · exact hup hlt

theorem pyRound2_bounds {a b : ℤ} {q : ℚ} (h1 : (a : ℚ) ≤ q) (h2 : q ≤ (b : ℚ)) :
    (a : ℚ) ≤ pyRound2 q ∧ pyRound2 q ≤ (b : ℚ) := by
  have hl : (100 * a : ℤ) ≤ roundHalfEven (q * 100) := by
    apply le_roundHalfEven
    push_cast
    linarith
  have hr : roundHalfEven (q * 100) ≤ (100 * b : ℤ) := by
    apply roundHalfEven_le
    push_cast
    linarith
  have hl' : ((100 * a : ℤ) : ℚ) ≤ (roundHalfEven (q * 100) : ℚ) := by exact_mod_cast hl
  have hr' : ((roundHalfEven (q * 100) : ℤ) : ℚ) ≤ ((100 * b : ℤ) : ℚ) := by exact_mod_cast hr
  unfold pyRound2
  push_cast at hl' hr' ⊢
  constructor <;> linarith

theorem pyRound2_of_intMul {n : ℤ} {q : ℚ} (h : q * 100 = (n : ℚ)) :
    pyRound2 q = q := by
  have hfl : ⌊q * 100⌋ = n := by rw [h]; exact Int.floor_intCast n
  have hr : q * 100 - (⌊q * 100⌋ : ℚ) = 0 := by rw [hfl, h]; ring
  unfold pyRound2 roundHalfEven
  dsimp only
  rw [if_pos (by rw [hr]; norm_num), hfl]
  rw [← h]
  ring

theorem pyRound2_zero : pyRound2 0 = 0 :=
  pyRound2_of_intMul (n := 0) (by norm_num)

/-! ### Helper lemmas: statistics -/

theorem mean_bounds {l : List ℚ} {a b : ℚ} (hne : l ≠ [])
    (h : ∀ x ∈ l, a ≤ x ∧ x ≤ b) : a ≤ mean l ∧ mean l ≤ b := by
  have hpos : 0 < (l.length : ℚ) := by
    have := List.length_pos.mpr hne
    exact_mod_cast this
  have hub : l.sum ≤ l.length • b := List.sum_le_card_nsmul l b (fun x hx => (h x hx).2)
  have hlb : l.length • a ≤ l.sum := List.card_nsmul_le_sum l a (fun x hx => (h x hx).1)
  rw [nsmul_eq_mul] at hub hlb
  constructor
  · rw [mean, le_div_iff₀ hpos]
    linarith
  · rw [mean, div_le_iff₀ hpos]
    linarith

theorem median_bounds {l : List ℚ} {a b : ℚ} (hne : l ≠ [])
    (h : ∀ x ∈ l, a ≤ x ∧ x ≤ b) : a ≤ median l ∧ median l ≤ b := by
  have hperm : List.Perm (l.insertionSort (· ≤ ·)) l := l.perm_insertionSort (· ≤ ·)
  have hslen : (l.insertionSort (· ≤ ·)).length = l.length := hperm.length_eq
  have hmem : ∀ x ∈ l.insertionSort (· ≤ ·), a ≤ x ∧ x ≤ b :=
    fun x hx => h x (hperm.subset hx)
  have hlpos : 0 < l.length := List.length_pos.mpr hne
  unfold median
  dsimp only
  split
  · rename_i hodd
    have hi : l.length / 2 < (l.insertionSort (· ≤ ·)).length := by
      rw [hslen]; omega
    rw [List.getD_eq_getElem _ _ hi]
    exact hmem _ (List.getElem_mem hi)
  · rename_i heven
    have hi1 : l.length / 2 - 1 < (l.insertionSort (· ≤ ·)).length := by
      rw [hslen]; omega
    have hi2 : l.length / 2 < (l.insertionSort (· ≤ ·)).length := by
      rw [hslen]; omega
    rw [List.getD_eq_getElem _ _ hi1, List.getD_eq_getElem _ _ hi2]
    have h1 := hmem _ (List.getElem_mem hi1)
    have h2 := hmem _ (List.getElem_mem hi2)
    constructor
    · linarith [h1.1, h2.1]
    · linarith [h1.2, h2.2]

theorem trimmed_mean_bounds {l : List ℚ} {a b : ℚ} (hne : l ≠ [])
    (h : ∀ x ∈ l, a ≤ x ∧ x ≤ b) :
    a ≤ _trimmed_mean l ∧ _trimmed_mean l ≤ b := by
  unfold _trimmed_mean
  split
  · exact mean_bounds hne h
  · rename_i hlen
    push_neg at hlen
    have hperm : List.Perm (l.insertionSort (· ≤ ·)) l := l.perm_insertionSort (· ≤ ·)
    have hmem : ∀ x ∈ ((l.insertionSort (· ≤ ·)).drop 1).dropLast,
        a ≤ x ∧ x ≤ b := by
      intro x hx
      have hx1 : x ∈ (l.insertionSort (· ≤ ·)).drop 1 := List.dropLast_subset _ hx
      have hx2 : x ∈ l.insertionSort (· ≤ ·) := List.drop_subset _ _ hx1
      exact h x (hperm.subset hx2)
    have hlen2 : (((l.insertionSort (· ≤ ·)).drop 1).dropLast).length = l.length - 2 := by
      rw [List.length_dropLast, List.length_drop, hperm.length_eq]
      omega
    have hne2 : ((l.insertionSort (· ≤ ·)).drop 1).dropLast ≠ [] := by
      intro hcontra
      rw [hcontra] at hlen2
      simp at hlen2
      omega
    exact mean_bounds hne2 hmem

theorem zipWith_mul_sum_le {vals ws : List ℚ} {b : ℚ} (hlen : vals.length = ws.length)
    (hw : ∀ w ∈ ws, 0 ≤ w) (hv : ∀ v ∈ vals, v ≤ b) :
    (List.zipWith (· * ·) vals ws).sum ≤ b * ws.sum := by
  induction vals generalizing ws with
  | nil =>
    have : ws = [] := by
      cases ws with
      | nil => rfl
      | cons w wt => simp at hlen
    simp [this]
  | cons v vs ih =>
    cases ws with
    | nil => simp at hlen
    | cons w wt =>
      simp only [List.zipWith_cons_cons, List.sum_cons]
      have h1 : v * w ≤ b * w :=
        mul_le_mul_of_nonneg_right (hv v (List.mem_cons_self _ _))
          (hw w (List.mem_cons_self _ _))
      have h2 := @ih wt (by simpa using hlen)
        (fun x hx => hw x (List.mem_cons_of_mem _ hx))
        (fun x hx => hv x (List.mem_cons_of_mem _ hx))
      have : b * (w + wt.sum) = b * w + b * wt.sum := by ring
      rw [this]
      linarith

theorem le_zipWith_mul_sum {vals ws : List ℚ} {a : ℚ} (hlen : vals.length = ws.length)
    (hw : ∀ w ∈ ws, 0 ≤ w) (hv : ∀ v ∈ vals, a ≤ v) :
    a * ws.sum ≤ (List.zipWith (· * ·) vals ws).sum := by
  induction vals generalizing ws with
  | nil =>
    have : ws = [] := by
      cases ws with
      | nil => rfl
      | cons w wt => simp at hlen
    simp [this]
  | cons v vs ih =>
    cases ws with
    | nil => simp at hlen
    | cons w wt =>
      simp only [List.zipWith_cons_cons, List.sum_cons]
      have h1 : a * w ≤ v * w :=
        mul_le_mul_of_nonneg_right (hv v (List.mem_cons_self _ _))
          (hw w (List.mem_cons_self _ _))
      have h2 := @ih wt (by simpa using hlen)
        (fun x hx => hw x (List.mem_cons_of_mem _ hx))
        (fun x hx => hv x (List.mem_cons_of_mem _ hx))
      have : a * (w + wt.sum) = a * w + a * wt.sum := by ring
      rw [this]
      linarith

theorem weightedAgg_bounds {vals ws : List ℚ} {a b : ℚ}
    (hlen : vals.length = ws.length) (hne : ws ≠ [])
    (hw : ∀ w ∈ ws, 0 < w) (hv : ∀ v ∈ vals, a ≤ v ∧ v ≤ b) :
    a ≤ weightedAgg vals ws ∧ weightedAgg vals ws ≤ b := by
  have hwsum : 0 < ws.sum := List.sum_pos ws (fun w h => hw w h) hne
  have hub := zipWith_mul_sum_le hlen (fun w h => (hw w h).le) (fun v h => (hv v h).2)
  have hlb := le_zipWith_mul_sum hlen (fun w h => (hw w h).le) (fun v h => (hv v h).1)
  rw [weightedAgg]
  constructor
  · rw [le_div_iff₀ hwsum]
    linarith
  · rw [div_le_iff₀ hwsum]
    linarith

theorem sampleVariance_nonneg (l : List ℚ) : 0 ≤ sampleVariance l := by
  unfold sampleVariance
  split
  · exact le_refl 0
  · rename_i hlen
    push_neg at hlen
    apply div_nonneg
    · apply List.sum_nonneg
      intro x hx
      obtain ⟨y, _, rfl⟩ := List.mem_map.mp hx
      positivity
    · have h2 : (2 : ℚ) ≤ (l.length : ℚ) := by exact_mod_cast hlen
      linarith

/-! ### Helper lemmas: personas and aggregation -/

theorem getPersona?_strictness {pid : String} {p : EvaluatorPersona}
    (h : getPersona? pid = some p) : 0 ≤ p.strictness ∧ p.strictness ≤ 1 := by
  simp only [getPersona?, PERSONAS, List.lookup] at h
  repeat' split at h
  all_goals simp_all [RIGORIST, SYNTHESIZER, STYLIST, CONTRARIAN, PEDAGOGUE]
  all_goals norm_num [← h]

theorem personaWeight_pos (pid : String) : 0 < personaWeight getPersona? pid := by
  unfold personaWeight
  match h : getPersona? pid with
  | none => norm_num
  | some p =>
    obtain ⟨h0, h1⟩ := getPersona?_strictness h
    have : p.strictness * 0.3 ≤ 0.3 := by
      calc p.strictness * 0.3 ≤ 1 * 0.3 := by
            apply mul_le_mul_of_nonneg_right h1
            norm_num
        _ = 0.3 := by norm_num
    norm_num
    linarith

theorem mem_successfulOf {s : IndividualScore} {scores : List IndividualScore} :
    s ∈ successfulOf scores ↔ s ∈ scores ∧ s.success = true := by
  simp [successfulOf, List.mem_filter]

theorem aggregateScoresWith_ok_iff (lookup : String → Option EvaluatorPersona)
    (scores : List IndividualScore) (method : AggregationMethod)
    (agg : AggregatedScore) :
    aggregateScoresWith lookup scores method = .ok agg ↔
      (successfulOf scores ≠ [] ∧ agg = aggRecord lookup scores method) := by
  unfold aggregateScoresWith
  split
  · rename_i hemp
    constructor
    · intro h
      exact absurd h (by simp)
    · rintro ⟨hne, _⟩
      exact absurd (List.isEmpty_iff.mp hemp) hne
  · rename_i hemp
    constructor
    · intro h
      refine ⟨?_, ?_⟩
      · intro hc
        exact hemp (by simp [hc])
      · cases h
        rfl
    · rintro ⟨_, rfl⟩
      rfl

/-! ### Helper lemmas: parser success -/

theorem parse_ok_of_good (data : RawData)
    (h : ∀ d : Dim, ∃ rd q, data.dims d = some rd ∧
      rd.score = some (RawScore.num q) ∧ 1 ≤ q ∧ q ≤ 10) :
    ∃ out, parse_evaluation_response (some data) = .ok out := by
  obtain ⟨rdn, qn, hdn, hsn, h1n, h10n⟩ := h .novelty
  obtain ⟨rds, qs, hds, hss, h1s, h10s⟩ := h .structureDim
  obtain ⟨rdt, qt, hdt, hst, h1t, h10t⟩ := h .thoroughness
  obtain ⟨rdc, qc, hdc, hsc, h1c, h10c⟩ := h .clarity
  have hgoal : parse_evaluation_response (some data) =
      .ok { dims := fun d => match d with
              | Dim.novelty => { score := qn, feedback := rdn.feedback.getD "" }
              | Dim.structureDim => { score := qs, feedback := rds.feedback.getD "" }
              | Dim.thoroughness => { score := qt, feedback := rdt.feedback.getD "" }
              | Dim.clarity => { score := qc, feedback := rdc.feedback.getD "" }
            overallSummary := data.overallSummary } := by
    simp only [parse_evaluation_response, hdn, hds, hdt, hdc, parseDim,
      hsn, hss, hst, hsc, coerceFloat, bind, Except.bind]
    rw [if_pos ⟨h1n, h10n⟩, if_pos ⟨h1s, h10s⟩, if_pos ⟨h1t, h10t⟩, if_pos ⟨h1c, h10c⟩]
  exact ⟨_, hgoal⟩

/-! ### Helper lemmas: runner and orchestrator -/

theorem runSingleEvaluation_spec (providerName personaId : String)
    (p : EvaluatorPersona) (hq : getPersona? personaId = some p)
    (hp : knownProvider providerName = true)
    (outcome : Except String (Option RawData)) :
    ∃ ev sc, runSingleEvaluation providerName personaId outcome = .ok (ev, sc) ∧
      ev.provider = providerName ∧ ev.personaId = personaId ∧
      (∀ e, outcome = .error e →
        ev.success = false ∧ sc.success = false ∧ ev.errorMessage = some e) ∧
      (∀ resp e, outcome = .ok resp → parse_evaluation_response resp = .error e →
        ev.success = false ∧ sc.success = false ∧ ev.errorMessage = some e) ∧
      (∀ resp scores, outcome = .ok resp → parse_evaluation_response resp = .ok scores →
        ev.success = true ∧ sc.success = true) := by
  have h1 : get_persona personaId = .ok p := by
    unfold get_persona
    rw [hq]
  have h2 : get_provider_check providerName = .ok () := by
    unfold get_provider_check
    simp [hp]
  unfold runSingleEvaluation
  simp only [h1, h2, bind, Except.bind]
  cases outcome with
  | error e =>
    refine ⟨_, _, rfl, rfl, rfl, ?_, ?_, ?_⟩
    · intro e' he
      cases he
      exact ⟨rfl, rfl, rfl⟩
    · intro resp e' he
      cases he
    · intro resp scores he
      cases he
  | ok resp =>
    dsimp only
    cases hpar : parse_evaluation_response resp with
    | error e =>
      refine ⟨_, _, rfl, rfl, rfl, ?_, ?_, ?_⟩
      · intro e' he
        cases he
      · intro resp' e' he hp2
        cases he
        rw [hpar] at hp2
        cases hp2
        exact ⟨rfl, rfl, rfl⟩
      · intro resp' scores he hp2
        cases he
        rw [hpar] at hp2
        cases hp2
    | ok scores =>
      refine ⟨_, _, rfl, rfl, rfl, ?_, ?_, ?_⟩
      · intro e' he
        cases he
      · intro resp' e' he hp2
        cases he
        rw [hpar] at hp2
        cases hp2
      · intro resp' scores' he hp2
        cases he
        exact ⟨rfl, rfl⟩

theorem taskPairs_length (ps is : List String) :
    (taskPairs ps is).length = ps.length * is.length := by
  induction ps with
  | nil => simp [taskPairs]
  | cons p pt ih =>
    simp only [taskPairs, List.flatMap_cons, List.length_append,
      List.length_map] at ih ⊢
    rw [ih, List.length_cons]
    ring

theorem mem_taskPairs {t : String × String} {ps is : List String} :
    t ∈ taskPairs ps is ↔ t.1 ∈ ps ∧ t.2 ∈ is := by
  cases t with
  | mk a b =>
    simp only [taskPairs, List.mem_flatMap, List.mem_map, Prod.mk.injEq]
    constructor
    · rintro ⟨x, hx, y, hy, rfl, rfl⟩
      exact ⟨hx, hy⟩
    · rintro ⟨ha, hb⟩
      exact ⟨a, ha, b, hb, rfl, rfl⟩

theorem length_filterMap_of_isSome {α β : Type} (f : α → Option β) (l : List α)
    (h : ∀ x ∈ l, (f x).isSome) : (l.filterMap f).length = l.length := by
  induction l with
  | nil => rfl
  | cons x xs ih =>
    have hx := h x (List.mem_cons_self _ _)
    obtain ⟨y, hy⟩ := Option.isSome_iff_exists.mp hx
    simp [List.filterMap_cons, hy,
      ih (fun z hz => h z (List.mem_cons_of_mem _ hz))]

theorem collectedResults_length (providerNames personaIds : List String)
    (outcome : String → String → Except String (Option RawData))
    (hp : ∀ p ∈ providerNames, knownProvider p = true)
    (hi : ∀ i ∈ personaIds, (getPersona? i).isSome) :
    (collectedResults providerNames personaIds outcome).length =
      providerNames.length * personaIds.length := by
  unfold collectedResults
  rw [length_filterMap_of_isSome, taskPairs_length]
  intro t ht
  obtain ⟨h1, h2⟩ := mem_taskPairs.mp ht
  obtain ⟨p, hp2⟩ := Option.isSome_iff_exists.mp (hi _ h2)
  obtain ⟨ev, sc, hrun, _⟩ := runSingleEvaluation_spec t.1 t.2 p hp2 (hp _ h1)
    (outcome t.1 t.2)
  simp [hrun, Except.toOption]

theorem evaluateEbookCore_aggregated {method : AggregationMethod}
    {pn ps : List String} {outcome : String → String → Except String (Option RawData)}
    {agg : AggregatedScore}
    (h : (evaluateEbookCore method pn ps outcome).aggregated = some agg) :
    aggregate_scores ((collectedResults pn ps outcome).map (fun r => r.2)) method
      = .ok agg := by
  unfold evaluateEbookCore at h
  dsimp only at h
  split at h
  · simp at h
  · split at h
    · simp at h
    · rename_i heq
      simp only [Option.some.injEq] at h
      rw [heq, h]

theorem aggRecord_evaluatorCount (lookup : String → Option EvaluatorPersona)
    (scores : List IndividualScore) (method : AggregationMethod) :
    (aggRecord lookup scores method).evaluatorCount = scores.length := rfl

theorem aggRecord_successfulCount (lookup : String → Option EvaluatorPersona)
    (scores : List IndividualScore) (method : AggregationMethod) :
    (aggRecord lookup scores method).successfulCount = (successfulOf scores).length := rfl

theorem aggRecord_overallScore (lookup : String → Option EvaluatorPersona)
    (scores : List IndividualScore) (method : AggregationMethod) :
    (aggRecord lookup scores method).overallScore =
      pyRound2 (aggOf lookup method (successfulOf scores)
        ((successfulOf scores).map (fun s => s.weightedScore))) := rfl

theorem aggRecord_scoreStdDevSq (lookup : String → Option EvaluatorPersona)
    (scores : List IndividualScore) (method : AggregationMethod) :
    (aggRecord lookup scores method).scoreStdDevSq =
      if 1 < ((successfulOf scores).map (fun s => s.weightedScore)).length
      then sampleVariance ((successfulOf scores).map (fun s => s.weightedScore))
      else 0 := rfl

theorem aggRecord_maxDisagreement (lookup : String → Option EvaluatorPersona)
    (scores : List IndividualScore) (method : AggregationMethod) :
    (aggRecord lookup scores method).maxDisagreement =
      pyRound2 (if ((successfulOf scores).map (fun s => s.weightedScore)).isEmpty
        then 0
        else listMax ((successfulOf scores).map (fun s => s.weightedScore))
          - listMin ((successfulOf scores).map (fun s => s.weightedScore))) := rfl

theorem overallOf_eq (lookup : String → Option EvaluatorPersona)
    (scores : List IndividualScore) (method : AggregationMethod)
    (hne : successfulOf scores ≠ []) :
    overallOf (aggregateScoresWith lookup scores method) =
      some (pyRound2 (aggOf lookup method (successfulOf scores)
        ((successfulOf scores).map (fun s => s.weightedScore)))) := by
  unfold aggregateScoresWith overallOf aggRecord
  rw [if_neg (by simpa [List.isEmpty_iff] using hne)]
  rfl

/-! ### Claim theorems -/

/-- C6: the aggregation methods compute, over the successful weighted
scores: `mean` the arithmetic mean, `median` the statistical median (mean of
the two middle values for even counts), `trimmed_mean` (when the successful
count is at least 4) the mean after sorting and dropping exactly one lowest
and one highest value and otherwise the median; on weighted scores
`[9, 8, 7, 2]` mean gives 6.5, median 7.5, trimmed mean 7.5, and on
`[9, 8, 2]` trimmed mean falls back to the median 8. -/
theorem C6_aggregation_method_values :
    overallOf (aggregate_scores scores4 .mean) = some 6.5 ∧
    overallOf (aggregate_scores scores4 .median) = some 7.5 ∧
    overallOf (aggregate_scores scores4 .trimmedMean) = some 7.5 ∧
    overallOf (aggregate_scores scores3 .trimmedMean) = some 8 ∧
    (∀ scores : List IndividualScore, (successfulOf scores).length < 4 →
      overallOf (aggregate_scores scores .trimmedMean) =
        overallOf (aggregate_scores scores .median)) := by
  have hsucc4 : successfulOf scores4 = scores4 := by
    simp [successfulOf, scores4, mkScore]
  have hsucc3 : successfulOf scores3 = scores3 := by
    simp [successfulOf, scores3, mkScore]
  have hne4 : successfulOf scores4 ≠ [] := by
    rw [hsucc4]
    simp [scores4]
  have hne3 : successfulOf scores3 ≠ [] := by
    rw [hsucc3]
    simp [scores3]
  have hmap4 : scores4.map (fun s => s.weightedScore) = [9, 8, 7, 2] := by
    simp [scores4, mkScore]
  have hmap3 : scores3.map (fun s => s.weightedScore) = [9, 8, 2] := by
    simp [scores3, mkScore]
  have hlen4 : scores4.length = 4 := by simp [scores4]
  have hlen3 : scores3.length = 3 := by simp [scores3]
  refine ⟨?_, ?_, ?_, ?_, ?_⟩
  · rw [aggregate_scores, overallOf_eq _ _ _ hne4, hsucc4, hmap4]
    have : aggOf getPersona? .mean scores4 [9, 8, 7, 2] = 13 / 2 := by
      norm_num [aggOf, mean]
    rw [this, pyRound2_of_intMul (n := 650) (by norm_num)]
    norm_num
  · rw [aggregate_scores, overallOf_eq _ _ _ hne4, hsucc4, hmap4]
    have : aggOf getPersona? .median scores4 [9, 8, 7, 2] = 15 / 2 := by
      norm_num [aggOf, median, List.insertionSort, List.orderedInsert]
    rw [this, pyRound2_of_intMul (n := 750) (by norm_num)]
    norm_num
  · rw [aggregate_scores, overallOf_eq _ _ _ hne4, hsucc4, hmap4]
    have : aggOf getPersona? .trimmedMean scores4 [9, 8, 7, 2] = 15 / 2 := by
      norm_num [aggOf, hlen4, _trimmed_mean, mean,
        List.insertionSort, List.orderedInsert]
    rw [this, pyRound2_of_intMul (n := 750) (by norm_num)]
    norm_num
  · rw [aggregate_scores, overallOf_eq _ _ _ hne3, hsucc3, hmap3]
    have : aggOf getPersona? .trimmedMean scores3 [9, 8, 2] = 8 := by
      norm_num [aggOf, hlen3, median, List.insertionSort, List.orderedInsert]
    rw [this, pyRound2_of_intMul (n := 800) (by norm_num)]
  · intro scores hlt
    by_cases hemp : successfulOf scores = []
    · simp [aggregate_scores, aggregateScoresWith, hemp, overallOf]
    · rw [aggregate_scores, aggregate_scores, overallOf_eq _ _ _ hemp,
        overallOf_eq _ _ _ hemp]
      have : aggOf getPersona? .trimmedMean (successfulOf scores)
          ((successfulOf scores).map (fun s => s.weightedScore)) =
          aggOf getPersona? .median (successfulOf scores)
          ((successfulOf scores).map (fun s => s.weightedScore)) := by
        simp only [aggOf]
        rw [if_neg (by omega)]
      rw [this]

/-- C6 witness: the trimmed-mean fallback clause of the theorem applied to
the three-element example. -/
theorem C6_aggregation_method_values_witness :
    (successfulOf scores3).length < 4 ∧
    overallOf (aggregate_scores scores3 .trimmedMean) =
      overallOf (aggregate_scores scores3 .median) := by
  have h : (successfulOf scores3).length < 4 := by
    simp [successfulOf, scores3, mkScore]
  exact ⟨h, C6_aggregation_method_values.2.2.2.2 scores3 h⟩

theorem listMax_singleton (a : ℚ) : listMax [a] = a := rfl

theorem listMin_singleton (a : ℚ) : listMin [a] = a := rfl

/-- C8: `score_std_dev` is the sample standard deviation of the successful
weighted scores (stated on its square, the sample variance, which keeps the
value rational), is exactly 0 (never an error/NaN) when the successful count
is at most 1, and `max_disagreement` is max − min of the successful weighted
scores (0 for a single result); on weighted scores `[9, 8, 7, 2]` the max
disagreement is 7. -/
theorem C8_agreement_metrics :
    (∀ (scores : List IndividualScore) (method : AggregationMethod)
        (agg : AggregatedScore), aggregate_scores scores method = .ok agg →
      agg.scoreStdDevSq =
        sampleVariance ((successfulOf scores).map (fun s => s.weightedScore)) ∧
      0 ≤ agg.scoreStdDevSq ∧
      (agg.successfulCount ≤ 1 → agg.scoreStdDevSq = 0) ∧
      agg.maxDisagreement =
        pyRound2 (listMax ((successfulOf scores).map (fun s => s.weightedScore))
          - listMin ((successfulOf scores).map (fun s => s.weightedScore))) ∧
      (agg.successfulCount = 1 → agg.maxDisagreement = 0)) ∧
    (∃ agg, aggregate_scores scores4 .mean = .ok agg ∧ agg.maxDisagreement = 7) := by
  constructor
  · intro scores method agg hok
    obtain ⟨hne, rfl⟩ := (aggregateScoresWith_ok_iff _ _ _ _).mp hok
    have hws : ((successfulOf scores).map (fun s => s.weightedScore)).isEmpty = false := by
      cases hsc : successfulOf scores with
      | nil => exact absurd hsc hne
      | cons a t => rfl
    have hstd : (aggRecord getPersona? scores method).scoreStdDevSq =
        sampleVariance ((successfulOf scores).map (fun s => s.weightedScore)) := by
      rw [aggRecord_scoreStdDevSq]
      by_cases h : 1 < ((successfulOf scores).map (fun s => s.weightedScore)).length
      · rw [if_pos h]
      · rw [if_neg h]
        unfold sampleVariance
        rw [if_pos (by omega)]
    refine ⟨hstd, ?_, ?_, ?_, ?_⟩
    · rw [hstd]
      exact sampleVariance_nonneg _
    · intro hcount
      rw [hstd]
      rw [aggRecord_successfulCount] at hcount
      unfold sampleVariance
      rw [if_pos (by simpa using hcount)]
    · rw [aggRecord_maxDisagreement, if_neg (by rw [hws]; exact Bool.false_ne_true)]
    · intro hcount
      rw [aggRecord_successfulCount] at hcount
      obtain ⟨s, hs⟩ := List.length_eq_one.mp hcount
      rw [aggRecord_maxDisagreement, hs]
      simp only [List.map_cons, List.map_nil, List.isEmpty_cons,
        listMax_singleton, listMin_singleton, sub_self]
      rw [if_neg Bool.false_ne_true]
      exact pyRound2_zero
  · have hsucc4 : successfulOf scores4 = scores4 := by
      simp [successfulOf, scores4, mkScore]
    have hne4 : successfulOf scores4 ≠ [] := by
      rw [hsucc4]
      simp [scores4]
    refine ⟨aggRecord getPersona? scores4 .mean,
      (aggregateScoresWith_ok_iff _ _ _ _).mpr ⟨hne4, rfl⟩, ?_⟩
    have hmap4 : (successfulOf scores4).map (fun s => s.weightedScore) = [9, 8, 7, 2] := by
      rw [hsucc4]
      simp [scores4, mkScore]
    have hmax : listMax [(9 : ℚ), 8, 7, 2] = 9 := by
      show List.foldl max (9 : ℚ) [8, 7, 2] = 9
      simp only [List.foldl_cons, List.foldl_nil]
      rw [show max (9 : ℚ) 8 = 9 from max_eq_left (by norm_num),
        show max (9 : ℚ) 7 = 9 from max_eq_left (by norm_num),
        show max (9 : ℚ) 2 = 9 from max_eq_left (by norm_num)]
    have hmin : listMin [(9 : ℚ), 8, 7, 2] = 2 := by
      show List.foldl min (9 : ℚ) [8, 7, 2] = 2
      simp only [List.foldl_cons, List.foldl_nil]
      rw [show min (9 : ℚ) 8 = 8 from min_eq_right (by norm_num),
        show min (8 : ℚ) 7 = 7 from min_eq_right (by norm_num),
        show min (7 : ℚ) 2 = 2 from min_eq_right (by norm_num)]
    rw [aggRecord_maxDisagreement, hmap4]
    rw [if_neg (by simp)]
    rw [hmax, hmin, show (9 : ℚ) - 2 = 7 from by norm_num]
    exact pyRound2_of_intMul (n := 700) (by norm_num)

/-- C8 witness: the metrics clause applied to the concrete three-score run. -/
theorem C8_agreement_metrics_witness :
    aggregate_scores scores3 .mean = .ok (aggRecord getPersona? scores3 .mean) ∧
    0 ≤ (aggRecord getPersona? scores3 .mean).scoreStdDevSq ∧
    (aggRecord getPersona? scores3 .mean).maxDisagreement =
      pyRound2 (listMax ((successfulOf scores3).map (fun s => s.weightedScore))
        - listMin ((successfulOf scores3).map (fun s => s.weightedScore))) := by
  have hne3 : successfulOf scores3 ≠ [] := by
    simp [successfulOf, scores3, mkScore]
  have hok : aggregate_scores scores3 .mean = .ok (aggRecord getPersona? scores3 .mean) :=
    (aggregateScoresWith_ok_iff _ _ _ _).mpr ⟨hne3, rfl⟩
  have h := C8_agreement_metrics.1 scores3 .mean _ hok
  exact ⟨hok, h.2.1, h.2.2.2.1⟩

/-- C1 counterexample: a response whose `novelty` entry has no `score`
field, and one whose `novelty` score is 11, each fail the entire parse (the
task hard-fails); the parser neither substitutes the neutral default 5.0 nor
clamps into `[1,10]`. -/
theorem C1_counterexample :
    (∃ e, parse_evaluation_response (some noveltyNoScoreData) = .error e) ∧
    (∃ e, parse_evaluation_response (some noveltyElevenData) = .error e) := by
  constructor
  · have h : parseDim "novelty" (noveltyNoScoreData.dims Dim.novelty) =
        .error "Missing score for dimension: novelty" := by
      simp only [noveltyNoScoreData, parseDim]
      rfl
    refine ⟨"Missing score for dimension: novelty", ?_⟩
    simp only [parse_evaluation_response, bind, Except.bind, h]
  · have h11 : parseDim "novelty" (noveltyElevenData.dims Dim.novelty) =
        .error "Score for novelty out of range" := by
      simp only [noveltyElevenData, parseDim, coerceFloat]
      rw [if_neg (by norm_num)]
      rfl
    refine ⟨"Score for novelty out of range", ?_⟩
    simp only [parse_evaluation_response, bind, Except.bind, h11]

/-- C1 (amended): whenever `parse_evaluation_response` succeeds, every
dimension was present with a `float`-coercible score already inside
`[1,10]`, and that score is passed through unchanged (no 5.0 defaulting, no
clamping); a missing or uncoercible or out-of-range score fails the whole
parse, and only a missing `feedback` is defaulted (to `""`). -/
theorem C1_no_defaulting_no_clamping (resp : Option RawData) (out : ParsedData)
    (h : parse_evaluation_response resp = .ok out) :
    ∃ data, resp = some data ∧
      ∀ d : Dim, ∃ rd q, data.dims d = some rd ∧
        rd.score = some (RawScore.num q) ∧ 1 ≤ q ∧ q ≤ 10 ∧
        (out.dims d).score = q ∧ (out.dims d).feedback = rd.feedback.getD "" := by
  obtain ⟨data, rfl, _, hall⟩ := (parse_ok_iff _ _).mp h
  exact ⟨data, rfl, hall⟩

/-- C1 witness: the amended theorem applied to a concrete successful parse. -/
theorem C1_no_defaulting_no_clamping_witness :
    ∃ data, (some sevenData : Option RawData) = some data ∧
      ∀ d : Dim, ∃ rd q, data.dims d = some rd ∧
        rd.score = some (RawScore.num q) ∧ 1 ≤ q ∧ q ≤ 10 ∧
        (sevenParsed.dims d).score = q ∧
        (sevenParsed.dims d).feedback = rd.feedback.getD "" :=
  C1_no_defaulting_no_clamping (some sevenData) sevenParsed (by
    simp only [parse_evaluation_response, sevenData, parseDim, coerceFloat,
      bind, Except.bind,
      show ((1 : ℚ) ≤ 7 ∧ (7 : ℚ) ≤ 10) = True from eq_true (by norm_num),
      if_true, Option.getD_some, sevenParsed])

/-- C10: a dimension present with an in-range score but no `feedback` field
does not fail the task (the parser substitutes `""` and succeeds), whereas a
dimension present without its `score` field fails the entire response
parse. -/
theorem C10_feedback_optional_score_required :
    (∀ data : RawData,
      (∀ d : Dim, ∃ rd q, data.dims d = some rd ∧
        rd.score = some (RawScore.num q) ∧ 1 ≤ q ∧ q ≤ 10) →
      ∃ out, parse_evaluation_response (some data) = .ok out ∧
        ∀ d rd, data.dims d = some rd → rd.feedback = none →
          (out.dims d).feedback = "") ∧
    (∀ (data : RawData) (d : Dim) (rd : RawDim), data.dims d = some rd →
      rd.score = none → ∃ e, parse_evaluation_response (some data) = .error e) := by
  constructor
  · intro data hgood
    obtain ⟨out, hout⟩ := parse_ok_of_good data hgood
    refine ⟨out, hout, ?_⟩
    intro d rd hrd hfb
    obtain ⟨data', heq, _, hall⟩ := (parse_ok_iff _ _).mp hout
    cases heq
    obtain ⟨rd', q, hrd', _, _, _, _, hfb'⟩ := hall d
    rw [hrd] at hrd'
    cases hrd'
    rw [hfb', hfb]
    rfl
  · intro data d rd hrd hscore
    cases hres : parse_evaluation_response (some data) with
    | error e => exact ⟨e, rfl⟩
    | ok out =>
      obtain ⟨data', heq, _, hall⟩ := (parse_ok_iff _ _).mp hres
      cases heq
      obtain ⟨rd', q, hrd', hscore', _⟩ := hall d
      rw [hrd] at hrd'
      cases hrd'
      rw [hscore] at hscore'
      cases hscore'

/-- C10 witness: the theorem applied to a response with no feedback fields
(parse succeeds, feedback defaults to `""`) and to a response whose
`clarity` entry has no score (parse fails). -/
theorem C10_feedback_optional_score_required_witness :
    (∃ out, parse_evaluation_response (some noFeedbackData) = .ok out ∧
      ∀ d rd, noFeedbackData.dims d = some rd → rd.feedback = none →
        (out.dims d).feedback = "") ∧
    (∃ e, parse_evaluation_response (some clarityNoScoreData) = .error e) :=
  ⟨C10_feedback_optional_score_required.1 noFeedbackData
      (fun _ => ⟨_, 7, rfl, rfl, by norm_num, by norm_num⟩),
    C10_feedback_optional_score_required.2 clarityNoScoreData Dim.clarity _ rfl rfl⟩

/-- C3: for a task over a registered provider and persona, the runner never
raises past its boundary: for every provider outcome it returns an
`(IndividualEvaluation, IndividualScore)` pair, and any provider-level
failure — the provider call raising (timeout, API error) or the response
failing to parse (malformed, missing required fields, uncoercible or
out-of-range score) — yields `success=false` with the captured error
message, never an exception. -/
theorem C3_runner_failure_is_data (providerName personaId : String)
    (hp : knownProvider providerName = true)
    (hq : (getPersona? personaId).isSome = true)
    (outcome : Except String (Option RawData)) :
    ∃ ev sc, runSingleEvaluation providerName personaId outcome = .ok (ev, sc) ∧
      (∀ e, outcome = .error e →
        ev.success = false ∧ sc.success = false ∧ ev.errorMessage = some e) ∧
      (∀ resp e, outcome = .ok resp → parse_evaluation_response resp = .error e →
        ev.success = false ∧ sc.success = false ∧ ev.errorMessage = some e) := by
  obtain ⟨p, hp2⟩ := Option.isSome_iff_exists.mp hq
  obtain ⟨ev, sc, hrun, _, _, h1, h2, _⟩ :=
    runSingleEvaluation_spec providerName personaId p hp2 hp outcome
  exact ⟨ev, sc, hrun, h1, h2⟩

/-- C3 witness: the runner applied to a claude/rigorist task whose provider
call times out. -/
theorem C3_runner_failure_is_data_witness :
    knownProvider "claude" = true ∧ (getPersona? "rigorist").isSome = true ∧
    (∃ ev sc, runSingleEvaluation "claude" "rigorist" (.error "timeout")
        = .ok (ev, sc) ∧
      (∀ e, (.error "timeout" : Except String (Option RawData)) = .error e →
        ev.success = false ∧ sc.success = false ∧ ev.errorMessage = some e) ∧
      (∀ resp e, (.error "timeout" : Except String (Option RawData)) = .ok resp →
        parse_evaluation_response resp = .error e →
        ev.success = false ∧ sc.success = false ∧ ev.errorMessage = some e)) :=
  ⟨rfl, rfl, C3_runner_failure_is_data "claude" "rigorist" rfl rfl (.error "timeout")⟩

/-- C2 counterexample: a judge constructed with explicitly empty provider
and persona lists gets silent defaults — `["claude"]` and
`["rigorist", "synthesizer"]` — so two tasks are built and dispatched and
the run proceeds to a verdict; no configuration error is ever raised. -/
theorem C2_counterexample :
    initProviderNames (some []) [] [] = ["claude"] ∧
    initPersonaIds (some []) [] = ["rigorist", "synthesizer"] ∧
    (taskPairs (initProviderNames (some []) [] [])
      (initPersonaIds (some []) [])).length = 2 ∧
    (evaluateEbookCore .median (initProviderNames (some []) [] [])
      (initPersonaIds (some []) []) timeoutOutcome).status = .failed :=
  ⟨rfl, rfl, rfl, rfl⟩

/-- C2 (amended): an empty provider or persona list is never rejected: the
constructor silently replaces an empty provider list with `["claude"]` and
an empty persona list with `["rigorist", "synthesizer"]`, so the configured
lists — and with them the task set — are never empty and no configuration
error is raised. -/
theorem C2_empty_lists_silently_defaulted (providers personas : Option (List String))
    (settingsProviders available settingsPersonas : List String) :
    initProviderNames providers settingsProviders available ≠ [] ∧
    initPersonaIds personas settingsPersonas ≠ [] ∧
    initProviderNames (some []) settingsProviders available = ["claude"] ∧
    initPersonaIds (some []) settingsPersonas = ["rigorist", "synthesizer"] ∧
    taskPairs (initProviderNames providers settingsProviders available)
      (initPersonaIds personas settingsPersonas) ≠ [] := by
  have hP : initProviderNames providers settingsProviders available ≠ [] := by
    unfold initProviderNames
    dsimp only
    split
    · simp
    · rename_i h
      intro hc
      apply h
      rw [hc]
      rfl
  have hI : initPersonaIds personas settingsPersonas ≠ [] := by
    unfold initPersonaIds
    dsimp only
    split
    · simp
    · rename_i h
      intro hc
      apply h
      rw [hc]
      rfl
  refine ⟨hP, hI, rfl, rfl, ?_⟩
  intro hc
  have hlen := taskPairs_length (initProviderNames providers settingsProviders available)
    (initPersonaIds personas settingsPersonas)
  rw [hc] at hlen
  have h1 := List.length_pos.mpr hP
  have h2 := List.length_pos.mpr hI
  simp only [List.length_nil] at hlen
  have := Nat.mul_pos h1 h2
  omega

/-- C5 counterexample: a single claude/rigorist task whose provider times
out: zero Individual Results succeed, the evaluation ends FAILED and the
ebook is rejected, but the aggregation engine IS invoked (it then raises on
the success-free list), contradicting "the Aggregation Engine is never
invoked". -/
theorem C5_counterexample :
    collectedResults ["claude"] ["rigorist"] timeoutOutcome =
      [failedPair "claude" "rigorist" "timeout"] ∧
    (failedPair "claude" "rigorist" "timeout").2.success = false ∧
    (evaluateEbookCore .median ["claude"] ["rigorist"] timeoutOutcome).aggregationCalled
      = true ∧
    (evaluateEbookCore .median ["claude"] ["rigorist"] timeoutOutcome).status
      = .failed ∧
    (evaluateEbookCore .median ["claude"] ["rigorist"] timeoutOutcome).ebookStatus
      = .rejected :=
  ⟨rfl, rfl, rfl, rfl, rfl⟩

/-- C5 (amended): when zero collected Individual Results have
`success=true`, the evaluation ends FAILED and the content unit is rejected;
but the Aggregation Engine is skipped only when the collected result list is
empty — whenever failed results are present it is invoked (and itself
rejects the success-free list, which the orchestrator's top-level handler
turns into the FAILED transition). -/
theorem C5_all_failed_failed_and_rejected (method : AggregationMethod)
    (providerNames personaIds : List String)
    (outcome : String → String → Except String (Option RawData))
    (hfail : ∀ r ∈ collectedResults providerNames personaIds outcome,
      r.2.success = false) :
    (evaluateEbookCore method providerNames personaIds outcome).status = .failed ∧
    (evaluateEbookCore method providerNames personaIds outcome).ebookStatus
      = .rejected ∧
    (evaluateEbookCore method providerNames personaIds outcome).aggregationCalled
      = !(collectedResults providerNames personaIds outcome).isEmpty := by
  have hsucc : successfulOf
      ((collectedResults providerNames personaIds outcome).map (fun r => r.2)) = [] := by
    unfold successfulOf
    rw [List.filter_eq_nil_iff]
    intro a ha
    obtain ⟨r, hr, rfl⟩ := List.mem_map.mp ha
    simp [hfail r hr]
  have hagg : aggregate_scores
      ((collectedResults providerNames personaIds outcome).map (fun r => r.2)) method
      = .error "No successful evaluations to aggregate" := by
    unfold aggregate_scores aggregateScoresWith
    rw [if_pos (by rw [hsucc]; rfl)]
  unfold evaluateEbookCore
  dsimp only
  split
  · rename_i hemp
    refine ⟨rfl, rfl, ?_⟩
    have hLnil : collectedResults providerNames personaIds outcome = [] := by
      cases hLc : collectedResults providerNames personaIds outcome with
      | nil => rfl
      | cons a t =>
        rw [hLc] at hemp
        simp at hemp
    rw [hLnil]
    rfl
  · rename_i hemp
    split
    · refine ⟨rfl, rfl, ?_⟩
      have hLne : (collectedResults providerNames personaIds outcome).isEmpty = false := by
        cases hLc : collectedResults providerNames personaIds outcome with
        | nil =>
          rw [hLc] at hemp
          simp at hemp
        | cons a t => rfl
      rw [hLne]
      rfl
    · rename_i heq
      rw [hagg] at heq
      cases heq

/-- C5 witness: the amended theorem applied to the single timed-out task. -/
theorem C5_all_failed_failed_and_rejected_witness :
    (evaluateEbookCore .median ["claude"] ["rigorist"] timeoutOutcome).status
      = .failed ∧
    (evaluateEbookCore .median ["claude"] ["rigorist"] timeoutOutcome).ebookStatus
      = .rejected ∧
    (evaluateEbookCore .median ["claude"] ["rigorist"] timeoutOutcome).aggregationCalled
      = !(collectedResults ["claude"] ["rigorist"] timeoutOutcome).isEmpty :=
  C5_all_failed_failed_and_rejected .median ["claude"] ["rigorist"] timeoutOutcome
    (by
      intro r hr
      rw [show collectedResults ["claude"] ["rigorist"] timeoutOutcome =
        [failedPair "claude" "rigorist" "timeout"] from rfl] at hr
      rw [List.mem_singleton.mp hr]
      rfl)

theorem runSingleEvaluation_unknown_persona (pn pid : String)
    (o : Except String (Option RawData)) (h : getPersona? pid = none) :
    runSingleEvaluation pn pid o = .error ("Unknown persona: " ++ pid) := by
  unfold runSingleEvaluation get_persona
  rw [h]
  rfl

theorem sevenData_good : ∀ d : Dim, ∃ rd q, sevenData.dims d = some rd ∧
    rd.score = some (RawScore.num q) ∧ 1 ≤ q ∧ q ≤ 10 :=
  fun _ => ⟨_, 7, rfl, rfl, by norm_num, by norm_num⟩

theorem collectedResults_claude_rigorist_seven :
    ∃ ev sc, collectedResults ["claude"] ["rigorist"] sevenOutcome = [(ev, sc)] ∧
      sc.success = true := by
  obtain ⟨out, hout⟩ := parse_ok_of_good sevenData sevenData_good
  obtain ⟨ev, sc, hrun, _, _, _, _, h5⟩ :=
    runSingleEvaluation_spec "claude" "rigorist" RIGORIST rfl rfl
      (sevenOutcome "claude" "rigorist")
  refine ⟨ev, sc, ?_, (h5 (some sevenData) out rfl hout).2⟩
  unfold collectedResults taskPairs
  simp [List.filterMap_cons, hrun, Except.toOption]

theorem collectedResults_with_bogus :
    ∃ ev sc, collectedResults ["claude"] ["rigorist", "bogus"] sevenOutcome
      = [(ev, sc)] ∧ sc.success = true := by
  obtain ⟨out, hout⟩ := parse_ok_of_good sevenData sevenData_good
  obtain ⟨ev, sc, hrun, _, _, _, _, h5⟩ :=
    runSingleEvaluation_spec "claude" "rigorist" RIGORIST rfl rfl
      (sevenOutcome "claude" "rigorist")
  have hrun2 := runSingleEvaluation_unknown_persona "claude" "bogus"
    (sevenOutcome "claude" "bogus") rfl
  refine ⟨ev, sc, ?_, (h5 (some sevenData) out rfl hout).2⟩
  unfold collectedResults taskPairs
  simp [List.filterMap_cons, hrun, hrun2, Except.toOption]

theorem evaluateEbookCore_ok_aggregated (method : AggregationMethod)
    (pn ps : List String) (outcome : String → String → Except String (Option RawData))
    (hne : successfulOf ((collectedResults pn ps outcome).map (fun r => r.2)) ≠ []) :
    (evaluateEbookCore method pn ps outcome).aggregated =
      some (aggRecord getPersona?
        ((collectedResults pn ps outcome).map (fun r => r.2)) method) := by
  have hscores_ne : ((collectedResults pn ps outcome).map (fun r => r.2)) ≠ [] := by
    intro hc
    apply hne
    rw [hc]
    rfl
  unfold evaluateEbookCore aggregate_scores
  dsimp only
  rw [if_neg (by
    cases hc : (collectedResults pn ps outcome).map (fun r => r.2) with
    | nil => exact absurd hc hscores_ne
    | cons a t => simp)]
  rw [(aggregateScoresWith_ok_iff getPersona? _ method _).mpr ⟨hne, rfl⟩]

/-- C4 counterexample: providers `["claude"]`, personas
`["rigorist", "bogus"]` — two tasks are attempted, but the `bogus` task's
unknown-persona exception (raised before the runner's try block) is silently
dropped by the orchestrator, so the produced aggregate has
`evaluator_count = 1 ≠ 2 = |providers| × |personas|`. -/
theorem C4_counterexample :
    aggEvalCountOf (evaluateEbookCore .median ["claude"] ["rigorist", "bogus"]
      sevenOutcome) = some 1 ∧
    ["claude"].length * (["rigorist", "bogus"].length) = 2 := by
  obtain ⟨ev, sc, hcoll, hs⟩ := collectedResults_with_bogus
  have hmap : (collectedResults ["claude"] ["rigorist", "bogus"] sevenOutcome).map
      (fun r => r.2) = [sc] := by
    rw [hcoll]
    rfl
  have hne : successfulOf [sc] ≠ [] := by
    simp [successfulOf, hs]
  have hagg := evaluateEbookCore_ok_aggregated .median ["claude"] ["rigorist", "bogus"]
    sevenOutcome (by rw [hmap]; exact hne)
  rw [hmap] at hagg
  refine ⟨?_, rfl⟩
  unfold aggEvalCountOf
  rw [hagg]
  simp [aggRecord_evaluatorCount]

/-- C4 (amended): `successful_count ≤ evaluator_count` holds for every
produced aggregate, unconditionally; `evaluator_count = |providers| ×
|personas|` holds provided every configured provider name and persona id is
registered (a task over an unknown id raises before the runner's try block
and is dropped from the count). -/
theorem C4_evaluator_count_invariant :
    (∀ (method : AggregationMethod) (providerNames personaIds : List String)
        (outcome : String → String → Except String (Option RawData))
        (agg : AggregatedScore),
      (evaluateEbookCore method providerNames personaIds outcome).aggregated
        = some agg →
      agg.successfulCount ≤ agg.evaluatorCount) ∧
    (∀ (method : AggregationMethod) (providerNames personaIds : List String)
        (outcome : String → String → Except String (Option RawData))
        (agg : AggregatedScore),
      (∀ p ∈ providerNames, knownProvider p = true) →
      (∀ i ∈ personaIds, (getPersona? i).isSome = true) →
      (evaluateEbookCore method providerNames personaIds outcome).aggregated
        = some agg →
      agg.evaluatorCount = providerNames.length * personaIds.length) := by
  constructor
  · intro method providerNames personaIds outcome agg hagg
    have hok := evaluateEbookCore_aggregated hagg
    obtain ⟨hne, rfl⟩ := (aggregateScoresWith_ok_iff _ _ _ _).mp hok
    rw [aggRecord_successfulCount, aggRecord_evaluatorCount]
    exact List.length_filter_le _ _
  · intro method providerNames personaIds outcome agg hp hi hagg
    have hok := evaluateEbookCore_aggregated hagg
    obtain ⟨hne, rfl⟩ := (aggregateScoresWith_ok_iff _ _ _ _).mp hok
    rw [aggRecord_evaluatorCount, List.length_map,
      collectedResults_length providerNames personaIds outcome hp hi]

/-- C4 witness: the unconditional inequality applied to the run containing
the unregistered `bogus` persona, and the equality applied to the fully
registered claude/rigorist run. -/
theorem C4_evaluator_count_invariant_witness :
    (∃ agg, (evaluateEbookCore .median ["claude"] ["rigorist", "bogus"]
        sevenOutcome).aggregated = some agg ∧
      agg.successfulCount ≤ agg.evaluatorCount) ∧
    (∃ agg, (evaluateEbookCore .median ["claude"] ["rigorist"]
        sevenOutcome).aggregated = some agg ∧
      agg.evaluatorCount = ["claude"].length * ["rigorist"].length) := by
  constructor
  · obtain ⟨ev, sc, hcoll, hs⟩ := collectedResults_with_bogus
    have hmap : (collectedResults ["claude"] ["rigorist", "bogus"] sevenOutcome).map
        (fun r => r.2) = [sc] := by
      rw [hcoll]
      rfl
    have hagg := evaluateEbookCore_ok_aggregated .median ["claude"] ["rigorist", "bogus"]
      sevenOutcome (by rw [hmap]; simp [successfulOf, hs])
    exact ⟨_, hagg, C4_evaluator_count_invariant.1 .median ["claude"]
      ["rigorist", "bogus"] sevenOutcome _ hagg⟩
  · have hp : ∀ p ∈ ["claude"], knownProvider p = true := by decide
    have hi : ∀ i ∈ ["rigorist"], (getPersona? i).isSome = true := by decide
    obtain ⟨ev, sc, hcoll, hs⟩ := collectedResults_claude_rigorist_seven
    have hmap : (collectedResults ["claude"] ["rigorist"] sevenOutcome).map
        (fun r => r.2) = [sc] := by
      rw [hcoll]
      rfl
    have hagg := evaluateEbookCore_ok_aggregated .median ["claude"] ["rigorist"]
      sevenOutcome (by rw [hmap]; simp [successfulOf, hs])
    exact ⟨_, hagg, C4_evaluator_count_invariant.2 .median ["claude"] ["rigorist"]
      sevenOutcome _ hp hi hagg⟩

/-- C7: under `weighted_mean` each successful result gets weight
`1 − persona.strictness × 0.3` (weight 1 when the persona id is unknown) and
the aggregate is `Σ(value_i × weight_i) / Σ(weight_i)` (the stored overall
score is that value rounded to 2 decimals); consequently two results from
personas of strictness 0.0 and 1.0 with differing values give a
weighted-mean aggregate strictly different from the mean aggregate. -/
theorem C7_weighted_mean_formula :
    (∀ (scores : List IndividualScore) (agg : AggregatedScore),
      aggregate_scores scores .weightedMean = .ok agg →
      agg.overallScore = pyRound2 (weightedAgg
        ((successfulOf scores).map (fun s => s.weightedScore))
        ((successfulOf scores).map (fun s => personaWeight getPersona? s.personaId)))) ∧
    (∀ pid, getPersona? pid = none → personaWeight getPersona? pid = 1) ∧
    (∀ (lookup : String → Option EvaluatorPersona) (idL idH : String)
        (pL pH : EvaluatorPersona) (a b : ℚ),
      lookup idL = some pL → lookup idH = some pH →
      pL.strictness = 0 → pH.strictness = 1 → a ≠ b →
      aggOf lookup .weightedMean [mkScore idL a, mkScore idH b] [a, b] ≠
        aggOf lookup .mean [mkScore idL a, mkScore idH b] [a, b]) := by
  refine ⟨?_, ?_, ?_⟩
  · intro scores agg hok
    obtain ⟨hne, rfl⟩ := (aggregateScoresWith_ok_iff _ _ _ _).mp hok
    rw [aggRecord_overallScore]
    rfl
  · intro pid h
    unfold personaWeight
    rw [h]
  · intro lookup idL idH pL pH a b hL hH hsL hsH hab
    simp only [aggOf, weightedAgg, mean, personaWeight, mkScore, hL, hH, hsL, hsH,
      List.map_cons, List.map_nil, List.zipWith_cons_cons, List.zipWith_nil_right,
      List.sum_cons, List.sum_nil, List.length_cons, List.length_nil]
    intro heq
    apply hab
    norm_num at heq
    have h17 : ((7 : ℚ) / 10 + 1) ≠ 0 := by norm_num
    field_simp at heq
    linarith

/-- C7 witness: the strict-difference clause applied to hypothetical
personas of strictness 0 and 1 with values 9 and 2. -/
theorem C7_weighted_mean_formula_witness :
    testLookup "lenient" = some LENIENT_TEST ∧
    testLookup "harsh" = some HARSH_TEST ∧
    LENIENT_TEST.strictness = 0 ∧ HARSH_TEST.strictness = 1 ∧ (9 : ℚ) ≠ 2 ∧
    aggOf testLookup .weightedMean [mkScore "lenient" 9, mkScore "harsh" 2] [9, 2] ≠
      aggOf testLookup .mean [mkScore "lenient" 9, mkScore "harsh" 2] [9, 2] :=
  ⟨rfl, rfl, rfl, rfl, by norm_num,
    C7_weighted_mean_formula.2.2 testLookup "lenient" "harsh" LENIENT_TEST HARSH_TEST
      9 2 rfl rfl rfl rfl (by norm_num)⟩

theorem aggRecord_noveltyScore (lookup : String → Option EvaluatorPersona)
    (scores : List IndividualScore) (method : AggregationMethod) :
    (aggRecord lookup scores method).noveltyScore =
      pyRound2 (aggOf lookup method (successfulOf scores)
        ((successfulOf scores).map (fun s => s.noveltyScore))) := rfl

theorem aggRecord_structureScore (lookup : String → Option EvaluatorPersona)
    (scores : List IndividualScore) (method : AggregationMethod) :
    (aggRecord lookup scores method).structureScore =
      pyRound2 (aggOf lookup method (successfulOf scores)
        ((successfulOf scores).map (fun s => s.structureScore))) := rfl

theorem aggRecord_thoroughnessScore (lookup : String → Option EvaluatorPersona)
    (scores : List IndividualScore) (method : AggregationMethod) :
    (aggRecord lookup scores method).thoroughnessScore =
      pyRound2 (aggOf lookup method (successfulOf scores)
        ((successfulOf scores).map (fun s => s.thoroughnessScore))) := rfl

theorem aggRecord_clarityScore (lookup : String → Option EvaluatorPersona)
    (scores : List IndividualScore) (method : AggregationMethod) :
    (aggRecord lookup scores method).clarityScore =
      pyRound2 (aggOf lookup method (successfulOf scores)
        ((successfulOf scores).map (fun s => s.clarityScore))) := rfl

theorem pyRound2_bounds_1_10 {q : ℚ} (h1 : 1 ≤ q) (h2 : q ≤ 10) :
    1 ≤ pyRound2 q ∧ pyRound2 q ≤ 10 := by
  have h := pyRound2_bounds (a := 1) (b := 10) (by exact_mod_cast h1) (by exact_mod_cast h2)
  constructor
  · exact_mod_cast h.1
  · exact_mod_cast h.2

theorem aggOf_bounds (method : AggregationMethod) (successful : List IndividualScore)
    (vals : List ℚ) (hlen : vals.length = successful.length) (hne : successful ≠ [])
    (hv : ∀ v ∈ vals, 1 ≤ v ∧ v ≤ 10) :
    1 ≤ aggOf getPersona? method successful vals ∧
      aggOf getPersona? method successful vals ≤ 10 := by
  have hvne : vals ≠ [] := by
    intro hc
    rw [hc] at hlen
    simp only [List.length_nil] at hlen
    exact hne (List.length_eq_zero.mp hlen.symm)
  cases method with
  | mean => exact mean_bounds hvne hv
  | median => exact median_bounds hvne hv
  | trimmedMean =>
    dsimp only [aggOf]
    split
    · exact trimmed_mean_bounds hvne hv
    · exact median_bounds hvne hv
  | weightedMean =>
    dsimp only [aggOf]
    apply weightedAgg_bounds
    · rw [hlen, List.length_map]
    · intro hc
      apply hne
      exact List.map_eq_nil_iff.mp hc
    · intro w hw
      obtain ⟨s, _, rfl⟩ := List.mem_map.mp hw
      exact personaWeight_pos _
    · exact hv

/-- C9: whenever aggregation produces a result and every successful input
has all dimension scores and its weighted score inside `[1,10]`, the overall
score and each per-dimension aggregate lie inside `[1,10]` under every
aggregation method, including after the rounding to two decimal places. -/
theorem C9_scores_in_range (scores : List IndividualScore)
    (method : AggregationMethod) (agg : AggregatedScore)
    (hin : ∀ s ∈ scores, s.success = true →
      (1 ≤ s.noveltyScore ∧ s.noveltyScore ≤ 10) ∧
      (1 ≤ s.structureScore ∧ s.structureScore ≤ 10) ∧
      (1 ≤ s.thoroughnessScore ∧ s.thoroughnessScore ≤ 10) ∧
      (1 ≤ s.clarityScore ∧ s.clarityScore ≤ 10) ∧
      (1 ≤ s.weightedScore ∧ s.weightedScore ≤ 10))
    (hok : aggregate_scores scores method = .ok agg) :
    (1 ≤ agg.overallScore ∧ agg.overallScore ≤ 10) ∧
    (1 ≤ agg.noveltyScore ∧ agg.noveltyScore ≤ 10) ∧
    (1 ≤ agg.structureScore ∧ agg.structureScore ≤ 10) ∧
    (1 ≤ agg.thoroughnessScore ∧ agg.thoroughnessScore ≤ 10) ∧
    (1 ≤ agg.clarityScore ∧ agg.clarityScore ≤ 10) := by
  obtain ⟨hne, rfl⟩ := (aggregateScoresWith_ok_iff _ _ _ _).mp hok
  have hmem : ∀ s ∈ successfulOf scores,
      (1 ≤ s.noveltyScore ∧ s.noveltyScore ≤ 10) ∧
      (1 ≤ s.structureScore ∧ s.structureScore ≤ 10) ∧
      (1 ≤ s.thoroughnessScore ∧ s.thoroughnessScore ≤ 10) ∧
      (1 ≤ s.clarityScore ∧ s.clarityScore ≤ 10) ∧
      (1 ≤ s.weightedScore ∧ s.weightedScore ≤ 10) := by
    intro s hs
    obtain ⟨hs1, hs2⟩ := mem_successfulOf.mp hs
    exact hin s hs1 hs2
  have hfield : ∀ f : IndividualScore → ℚ,
      (∀ s ∈ successfulOf scores, 1 ≤ f s ∧ f s ≤ 10) →
      1 ≤ pyRound2 (aggOf getPersona? method (successfulOf scores)
        ((successfulOf scores).map f)) ∧
      pyRound2 (aggOf getPersona? method (successfulOf scores)
        ((successfulOf scores).map f)) ≤ 10 := by
    intro f hf
    have hb := aggOf_bounds method (successfulOf scores)
      ((successfulOf scores).map f) (List.length_map _ _) hne (by
        intro v hv
        obtain ⟨s, hs, rfl⟩ := List.mem_map.mp hv
        exact hf s hs)
    exact pyRound2_bounds_1_10 hb.1 hb.2
  refine ⟨?_, ?_, ?_, ?_, ?_⟩
  · rw [aggRecord_overallScore]
    exact hfield _ (fun s hs => (hmem s hs).2.2.2.2)
  · rw [aggRecord_noveltyScore]
    exact hfield _ (fun s hs => (hmem s hs).1)
  · rw [aggRecord_structureScore]
    exact hfield _ (fun s hs => (hmem s hs).2.1)
  · rw [aggRecord_thoroughnessScore]
    exact hfield _ (fun s hs => (hmem s hs).2.2.1)
  · rw [aggRecord_clarityScore]
    exact hfield _ (fun s hs => (hmem s hs).2.2.2.1)

/-- C9 witness: the range invariant applied to the concrete three-score
aggregation under the mean method. -/
theorem C9_scores_in_range_witness :
    aggregate_scores scores3 .mean = .ok (aggRecord getPersona? scores3 .mean) ∧
    1 ≤ (aggRecord getPersona? scores3 .mean).overallScore ∧
    (aggRecord getPersona? scores3 .mean).overallScore ≤ 10 := by
  have hne3 : successfulOf scores3 ≠ [] := by
    simp [successfulOf, scores3, mkScore]
  have hok : aggregate_scores scores3 .mean = .ok (aggRecord getPersona? scores3 .mean) :=
    (aggregateScoresWith_ok_iff _ _ _ _).mpr ⟨hne3, rfl⟩
  have hin : ∀ s ∈ scores3, s.success = true →
      (1 ≤ s.noveltyScore ∧ s.noveltyScore ≤ 10) ∧
      (1 ≤ s.structureScore ∧ s.structureScore ≤ 10) ∧
      (1 ≤ s.thoroughnessScore ∧ s.thoroughnessScore ≤ 10) ∧
      (1 ≤ s.clarityScore ∧ s.clarityScore ≤ 10) ∧
      (1 ≤ s.weightedScore ∧ s.weightedScore ≤ 10) := by
    intro s hs _
    simp only [scores3, List.mem_cons, List.not_mem_nil, or_false] at hs
    rcases hs with rfl | rfl | rfl <;> norm_num [mkScore]
  have h := C9_scores_in_range scores3 .mean _ hin hok
  exact ⟨hok, h.1.1, h.1.2⟩

end BotEbooks
